import Mathlib

/-!
Shallow embedding of the `jaywt` package (oreqizer/go-jwt-parser, src/jaywt.go).

The package extracts a JWT from an HTTP request's Authorization header,
delegates parse/verify to the external `gopkg.in/dgrijalva/jwt-go.v3`
library, and enforces that the verified token's declared algorithm equals
the configured expected signing algorithm.

Modelling conventions:
- A Go `error` value is modelled by its message string (`GoError`), since
  every error the package produces is built with `errors.New`/`fmt.Errorf`.
- A Go call that returns `(T, error)` is modelled by `GoResult T`, with a
  third constructor `panicked` for Go runtime panics (e.g. calling a nil
  function value), so that "returns an error" and "panics" stay distinct.
- The external jwt library is opaque to the package; its two parse
  operations are a parameter (`jwt.Lib`), universally quantified in the
  theorems. Its `Token` is modelled by the one field the package reads
  (the header map) plus raw/valid carriers.
- `strings.Split` with the one-character separator `' '` is embedded as
  `stringsSplit` on `List Char`.
-/

/-- A Go error value, carrying the message produced by `errors.New` / `fmt.Errorf`. -/
structure GoError where
  msg : String
deriving DecidableEq

/-- Outcome of a Go call returning `(α, error)`: a value with nil error, a
non-nil error, or a runtime panic. -/
inductive GoResult (α : Type) where
  | ok (a : α)
  | err (e : GoError)
  | panicked (msg : String)
deriving DecidableEq

namespace jwt

/-- Model of `jwt.Token` from the external library: the package reads only
`token.Header["alg"]`; `Raw` and `Valid` carry the rest of the surface.
Header values are the strings the library decodes; an absent key is the
nil interface value, modelled by `none` on lookup. -/
structure Token where
  Raw : String
  Header : List (String × String)
  Valid : Bool
deriving DecidableEq

/-- Go map indexing `t.Header[k]`: `none` models the nil interface value
returned for an absent key. -/
def Token.headerGet (t : Token) (k : String) : Option String :=
  (t.Header.find? (fun p => p.1 == k)).map Prod.snd

/-- `jwt.Keyfunc`: resolves key material for a parsed token. The package
never calls it, only passes it to the library. -/
def Keyfunc : Type := Token → GoResult String

/-- `jwt.SigningMethod`: the package only calls its `Alg()` method, so the
model is the algorithm-identifier string that method returns. -/
structure SigningMethod where
  AlgId : String
deriving DecidableEq

/-- The `Alg()` method of a signing method. -/
def SigningMethod.Alg (s : SigningMethod) : String := s.AlgId

/-- `jwt.SigningMethodHS256` (HMAC-SHA-256); its `Alg()` is `"HS256"`. -/
def SigningMethodHS256 : SigningMethod := ⟨"HS256"⟩

/-- The external library's two parse-and-verify operations (`jwt.Parse` and
`jwt.ParseWithClaims`), abstract: the package treats them as opaque. `C` is
the caller's claims-container type; `ParseWithClaims` receives it. -/
structure Lib (C : Type) where
  Parse : String → Option Keyfunc → GoResult Token
  ParseWithClaims : String → C → Option Keyfunc → GoResult Token

end jwt

/-- The slice of `net/http.Request` the package reads: the Authorization
header. `none` models an absent header. -/
structure Request where
  authHeader : Option String

/-- `r.Header.Get("Authorization")`: yields `""` when the header is absent. -/
def Request.headerGetAuthorization (r : Request) : String :=
  r.authHeader.getD ""

/-- `TokenExtractor` (src/jaywt.go:12): retrieves the raw token string from
a request. -/
def TokenExtractor : Type := Request → GoResult String

/-- `strings.Split` with a one-character separator: splits around every
occurrence of `sep`; the empty string yields `[[]]` (one empty part). -/
def stringsSplit (sep : Char) : List Char → List (List Char)
  | [] => [[]]
  | c :: rest =>
    if c = sep then
      [] :: stringsSplit sep rest
    else
      match stringsSplit sep rest with
      | [] => [[c]]
      | p :: ps => (c :: p) :: ps

/-- The extractor's format error (src/jaywt.go:57). -/
def authHeaderFormatError : GoError :=
  ⟨"Authorization header format must be \x27Bearer <token>\x27"⟩

/-- The validator's missing-token error (src/jaywt.go:122). -/
def tokenNotFoundError : GoError := ⟨"Token not found"⟩

/-- `fmt.Errorf("Error extracting token: %v", err)` (src/jaywt.go:117). -/
def errorExtractingToken (e : GoError) : GoError :=
  ⟨"Error extracting token: " ++ e.msg⟩

/-- `fmt.Errorf("Error parsing token: %v", err)` (src/jaywt.go:75,99). -/
def errorParsingToken (e : GoError) : GoError :=
  ⟨"Error parsing token: " ++ e.msg⟩

/-- `fmt`'s `%s` rendering of the interface value `token.Header["alg"]`:
the string itself, or `%!s(<nil>)` for the nil interface of an absent key. -/
def fmtAlgValue : Option String → String
  | some s => s
  | none => "%!s(<nil>)"

/-- `fmt.Errorf("Invalid token algorithm. Wanted %s, got %s", ...)`
(src/jaywt.go:131). -/
def invalidAlgorithmError (wanted : String) (got : Option String) : GoError :=
  ⟨"Invalid token algorithm. Wanted " ++ wanted ++ ", got " ++ fmtAlgValue got⟩

/-- `FromAuthHeader` (src/jaywt.go:49): the default extractor. Absent or
empty header: ok with `""`. Otherwise split on `' '`; unless there are
exactly 2 parts and the first lowercased is `"bearer"`, the format error;
otherwise ok with the second part. (`headD`/`getD` stand for the source's
`parts[0]`/`parts[1]`, which are in bounds under the length-2 guard.) -/
def FromAuthHeader (r : Request) : GoResult String :=
  let header := r.headerGetAuthorization
  if header = "" then
    GoResult.ok ""
  else
    let parts := stringsSplit ' ' header.data
    if parts.length ≠ 2 ∨ (parts.headD []).map Char.toLower ≠ "bearer".data then
      GoResult.err authHeaderFormatError
    else
      GoResult.ok (String.mk (parts.getD 1 []))

/-- `Options` (src/jaywt.go:15): all three fields default to nil, modelled
by `Option`. -/
structure Options where
  Keyfunc : Option jwt.Keyfunc
  Extractor : Option TokenExtractor
  SigningMethod : Option jwt.SigningMethod

/-- `Core` (src/jaywt.go:28): holds (a pointer to) the Options. -/
structure Core where
  Options : Options

/-- The in-place defaulting `New` performs through the caller's `*Options`
pointer (src/jaywt.go:35-41): fill `Extractor` with `FromAuthHeader` and
`SigningMethod` with `jwt.SigningMethodHS256` when nil. -/
def Options.applyNewDefaults (o : Options) : Options :=
  let o1 :=
    match o.Extractor with
    | none => { o with Extractor := some FromAuthHeader }
    | some _ => o
  match o1.SigningMethod with
  | none => { o1 with SigningMethod := some jwt.SigningMethodHS256 }
  | some _ => o1

/-- `New` (src/jaywt.go:34): defaults the caller's Options in place and
returns a Core holding that same (now defaulted) Options. -/
def New (o : Options) : Core :=
  Core.mk o.applyNewDefaults

/-- `Core.rawToken` (src/jaywt.go:113): run the configured extractor
(calling a nil extractor is a Go panic), wrap its error, and reject an
empty extracted string with `tokenNotFoundError`. -/
def Core.rawToken (m : Core) (r : Request) : GoResult String :=
  match m.Options.Extractor with
  | none => GoResult.panicked "call of nil TokenExtractor"
  | some extract =>
    match extract r with
    | GoResult.panicked s => GoResult.panicked s
    | GoResult.err e => GoResult.err (errorExtractingToken e)
    | GoResult.ok raw =>
      if raw = "" then GoResult.err tokenNotFoundError
      else GoResult.ok raw

/-- `Core.validateToken` (src/jaywt.go:128): compare the configured signing
method's `Alg()` (a Go string, so `some alg` as an interface value) against
`token.Header["alg"]`; on inequality return the mismatch error naming both.
Calling `Alg()` on a nil SigningMethod is a Go panic. -/
def Core.validateToken (m : Core) (token : jwt.Token) : GoResult Unit :=
  match m.Options.SigningMethod with
  | none => GoResult.panicked "call of Alg on nil jwt.SigningMethod"
  | some sm =>
    let alg := sm.Alg
    if some alg ≠ token.headerGet "alg" then
      GoResult.err (invalidAlgorithmError alg (token.headerGet "alg"))
    else
      GoResult.ok ()

/-- `Core.Get` (src/jaywt.go:65): extract via `rawToken`, parse via the
library's `Parse` (wrapping its error), then `validateToken`; return the
parsed token. -/
def Core.Get (m : Core) {C : Type} (lib : jwt.Lib C) (r : Request) :
    GoResult jwt.Token :=
  match m.rawToken r with
  | GoResult.panicked s => GoResult.panicked s
  | GoResult.err e => GoResult.err e
  | GoResult.ok raw =>
    match lib.Parse raw m.Options.Keyfunc with
    | GoResult.panicked s => GoResult.panicked s
    | GoResult.err e => GoResult.err (errorParsingToken e)
    | GoResult.ok token =>
      match m.validateToken token with
      | GoResult.panicked s => GoResult.panicked s
      | GoResult.err e => GoResult.err e
      | GoResult.ok _ => GoResult.ok token

/-- `Core.GetWithClaims` (src/jaywt.go:89): same as `Get` but parsing with
the library's `ParseWithClaims`, which receives the caller's claims
container. -/
def Core.GetWithClaims (m : Core) {C : Type} (lib : jwt.Lib C) (r : Request)
    (claims : C) : GoResult jwt.Token :=
  match m.rawToken r with
  | GoResult.panicked s => GoResult.panicked s
  | GoResult.err e => GoResult.err e
  | GoResult.ok raw =>
    match lib.ParseWithClaims raw claims m.Options.Keyfunc with
    | GoResult.panicked s => GoResult.panicked s
    | GoResult.err e => GoResult.err (errorParsingToken e)
    | GoResult.ok token =>
      match m.validateToken token with
      | GoResult.panicked s => GoResult.panicked s
      | GoResult.err e => GoResult.err e
      | GoResult.ok _ => GoResult.ok token

/-! Concrete fixtures used by the witness theorems. -/

/-- A token whose header declares `alg: RS256`. -/
def tokenRS256 : jwt.Token := ⟨"x", [("alg", "RS256")], true⟩

/-- A token whose header declares `alg: HS256`. -/
def tokenHS256 : jwt.Token := ⟨"x", [("alg", "HS256")], true⟩

/-- A token whose header map has no `alg` entry at all. -/
def tokenNoAlg : jwt.Token := ⟨"x", [], true⟩

/-- A library whose two parse operations both succeed with the token `t`. -/
def libConst (t : jwt.Token) : jwt.Lib Unit :=
  ⟨fun _ _ => GoResult.ok t, fun _ _ _ => GoResult.ok t⟩

/-- A library whose two parse operations both fail. -/
def libFail : jwt.Lib Unit :=
  ⟨fun _ _ => GoResult.err ⟨"signature is invalid"⟩,
   fun _ _ _ => GoResult.err ⟨"signature is invalid"⟩⟩

/-- A Core built by `New` from all-nil Options. -/
def coreDefault : Core := New ⟨none, none, none⟩

/-- A request carrying `Authorization: Bearer x`. -/
def reqBearerX : Request := ⟨some "Bearer x"⟩

/-! Helper lemmas. -/

/-- Splitting a separator-free character list yields that one part. -/
theorem stringsSplit_no_sep (sep : Char) (l : List Char) (h : sep ∉ l) :
    stringsSplit sep l = [l] := by
  induction l with
  | nil => rfl
  | cons c rest ih =>
    have hc : c ≠ sep := by rintro rfl; exact h (List.mem_cons_self _ _)
    have hr : sep ∉ rest := fun hm => h (List.mem_cons_of_mem _ hm)
    simp [stringsSplit, hc, ih hr]

/-- Splitting peels off a separator-free prefix before a separator. -/
theorem stringsSplit_append_sep (sep : Char) (l rest : List Char) (h : sep ∉ l) :
    stringsSplit sep (l ++ sep :: rest) = l :: stringsSplit sep rest := by
  induction l with
  | nil => simp [stringsSplit]
  | cons c l' ih =>
    have hc : c ≠ sep := by rintro rfl; exact h (List.mem_cons_self _ _)
    have hl : sep ∉ l' := fun hm => h (List.mem_cons_of_mem _ hm)
    simp [stringsSplit, hc, ih hl]

/-- When the configured signing method is set and its identifier differs from
the `alg` header entry, `validateToken` returns the mismatch error. -/
theorem validateToken_mismatch (m : Core) (sm : jwt.SigningMethod)
    (token : jwt.Token) (hsm : m.Options.SigningMethod = some sm)
    (halg : token.headerGet "alg" ≠ some sm.Alg) :
    m.validateToken token
      = GoResult.err (invalidAlgorithmError sm.Alg (token.headerGet "alg")) := by
  simp only [Core.validateToken, hsm]
  rw [if_pos (Ne.symm halg)]

/-- A token returned by `Get` passed `validateToken`. -/
theorem validated_of_Get_ok (m : Core) (C : Type) (lib : jwt.Lib C)
    (r : Request) (token : jwt.Token)
    (hok : m.Get lib r = GoResult.ok token) :
    m.validateToken token = GoResult.ok () := by
  unfold Core.Get at hok
  cases hraw : m.rawToken r with
  | panicked s => simp [hraw] at hok
  | err e => simp [hraw] at hok
  | ok raw =>
    simp only [hraw] at hok
    cases hparse : lib.Parse raw m.Options.Keyfunc with
    | panicked s => simp [hparse] at hok
    | err e => simp [hparse] at hok
    | ok tok =>
      simp only [hparse] at hok
      cases hval : m.validateToken tok with
      | panicked s => simp [hval] at hok
      | err e => simp [hval] at hok
      | ok u =>
        simp only [hval] at hok
        obtain rfl : tok = token := by simpa using hok
        cases u
        exact hval

/-! Claim theorems and their witnesses. -/

/-- C1: whenever the extracted raw token parses to a verified token whose
header `alg` entry differs (exact string comparison, no aliasing) from the
configured signing method identifier, both `Get` and `GetWithClaims` return
the algorithm-mismatch error naming the expected and the received
identifier, and never return the verified token, regardless of the library
having verified the signature. -/
theorem Get_rejects_algorithm_mismatch
    (m : Core) (sm : jwt.SigningMethod) (C : Type) (lib : jwt.Lib C)
    (claims : C) (r : Request) (raw : String) (tokA tokB : jwt.Token)
    (hsm : m.Options.SigningMethod = some sm)
    (hraw : m.rawToken r = GoResult.ok raw)
    (hparse : lib.Parse raw m.Options.Keyfunc = GoResult.ok tokA)
    (hparseC : lib.ParseWithClaims raw claims m.Options.Keyfunc = GoResult.ok tokB)
    (halgA : tokA.headerGet "alg" ≠ some sm.Alg)
    (halgB : tokB.headerGet "alg" ≠ some sm.Alg) :
    m.Get lib r = GoResult.err (invalidAlgorithmError sm.Alg (tokA.headerGet "alg"))
    ∧ m.GetWithClaims lib r claims
        = GoResult.err (invalidAlgorithmError sm.Alg (tokB.headerGet "alg"))
    ∧ (∀ t : jwt.Token, m.Get lib r ≠ GoResult.ok t)
    ∧ (∀ t : jwt.Token, m.GetWithClaims lib r claims ≠ GoResult.ok t) := by
  have hvA := validateToken_mismatch m sm tokA hsm halgA
  have hvB := validateToken_mismatch m sm tokB hsm halgB
  have hA : m.Get lib r
      = GoResult.err (invalidAlgorithmError sm.Alg (tokA.headerGet "alg")) := by
    simp [Core.Get, hraw, hparse, hvA]
  have hB : m.GetWithClaims lib r claims
      = GoResult.err (invalidAlgorithmError sm.Alg (tokB.headerGet "alg")) := by
    simp [Core.GetWithClaims, hraw, hparseC, hvB]
  exact ⟨hA, hB, fun t ht => by rw [hA] at ht; exact GoResult.noConfusion ht,
    fun t ht => by rw [hB] at ht; exact GoResult.noConfusion ht⟩

/-- Witness for C1: the default Core (expected HS256) rejects a token
declaring RS256, with the error naming both identifiers. -/
theorem Get_rejects_algorithm_mismatch_witness :
    coreDefault.Options.SigningMethod = some jwt.SigningMethodHS256
    ∧ coreDefault.rawToken reqBearerX = GoResult.ok "x"
    ∧ tokenRS256.headerGet "alg" ≠ some "HS256"
    ∧ coreDefault.Get (libConst tokenRS256) reqBearerX
        = GoResult.err (invalidAlgorithmError "HS256" (some "RS256"))
    ∧ coreDefault.GetWithClaims (libConst tokenRS256) reqBearerX ()
        = GoResult.err (invalidAlgorithmError "HS256" (some "RS256")) := by
  have h := Get_rejects_algorithm_mismatch coreDefault jwt.SigningMethodHS256
    Unit (libConst tokenRS256) () reqBearerX "x" tokenRS256 tokenRS256
    rfl (by decide) rfl rfl (by decide) (by decide)
  exact ⟨rfl, by decide, by decide, h.1, h.2.1⟩

/-- C2: a non-empty Authorization value that does not split on the space
character into exactly two parts, or whose first part lowercased is not
`bearer`, makes `FromAuthHeader` fail with the format error naming the
required `Bearer <token>` shape; `Token abc.def.ghi` fails while
`bearer abc.def.ghi` succeeds (case-insensitive scheme). -/
theorem FromAuthHeader_rejects_malformed :
    (∀ h : String, h ≠ "" →
      ((stringsSplit ' ' h.data).length ≠ 2 ∨
        ((stringsSplit ' ' h.data).headD []).map Char.toLower ≠ "bearer".data) →
      FromAuthHeader ⟨some h⟩ = GoResult.err authHeaderFormatError)
    ∧ FromAuthHeader ⟨some "Token abc.def.ghi"⟩ = GoResult.err authHeaderFormatError
    ∧ FromAuthHeader ⟨some "bearer abc.def.ghi"⟩ = GoResult.ok "abc.def.ghi" := by
  refine ⟨?_, by decide, by decide⟩
  intro h hne hcond
  simp only [FromAuthHeader, Request.headerGetAuthorization, Option.getD]
  rw [if_neg hne, if_pos hcond]

/-- Witness for C2: the universal part applied to `Token abc.def.ghi`. -/
theorem FromAuthHeader_rejects_malformed_witness :
    ("Token abc.def.ghi" : String) ≠ ""
    ∧ FromAuthHeader ⟨some "Token abc.def.ghi"⟩
        = GoResult.err authHeaderFormatError :=
  ⟨by decide,
   FromAuthHeader_rejects_malformed.1 "Token abc.def.ghi" (by decide) (by decide)⟩

/-- C3: an absent or empty Authorization header makes `FromAuthHeader`
succeed with the empty string; whenever any configured extractor succeeds
with the empty string, `rawToken`, `Get` and `GetWithClaims` all fail with
the distinct token-not-found error (distinct from the format error). -/
theorem empty_token_is_validator_failure :
    (∀ r : Request, r.headerGetAuthorization = "" → FromAuthHeader r = GoResult.ok "")
    ∧ (∀ (m : Core) (ext : TokenExtractor) (r : Request) (C : Type)
        (lib : jwt.Lib C) (claims : C),
        m.Options.Extractor = some ext → ext r = GoResult.ok "" →
        m.rawToken r = GoResult.err tokenNotFoundError
        ∧ m.Get lib r = GoResult.err tokenNotFoundError
        ∧ m.GetWithClaims lib r claims = GoResult.err tokenNotFoundError)
    ∧ tokenNotFoundError ≠ authHeaderFormatError := by
  refine ⟨?_, ?_, by decide⟩
  · intro r hr
    simp [FromAuthHeader, hr]
  · intro m ext r C lib claims hext hr
    have hraw : m.rawToken r = GoResult.err tokenNotFoundError := by
      simp [Core.rawToken, hext, hr]
    exact ⟨hraw, by simp [Core.Get, hraw], by simp [Core.GetWithClaims, hraw]⟩

/-- Witness for C3: a request with no Authorization header extracts to the
empty string, and validation on the default Core fails with token-not-found. -/
theorem empty_token_is_validator_failure_witness :
    FromAuthHeader ⟨none⟩ = GoResult.ok ""
    ∧ coreDefault.Get (libConst tokenHS256) ⟨none⟩
        = GoResult.err tokenNotFoundError
    ∧ coreDefault.GetWithClaims (libConst tokenHS256) ⟨none⟩ ()
        = GoResult.err tokenNotFoundError := by
  have h2 := empty_token_is_validator_failure.2.1 coreDefault FromAuthHeader
    ⟨none⟩ Unit (libConst tokenHS256) () rfl rfl
  exact ⟨empty_token_is_validator_failure.1 ⟨none⟩ rfl, h2.2.1, h2.2.2⟩

/-- C4: for a header of the form `Bearer ` followed by a space-free token
string, `FromAuthHeader` succeeds with exactly that token string,
unmodified. -/
theorem FromAuthHeader_returns_token_verbatim (tok : String)
    (h : ' ' ∉ tok.data) :
    FromAuthHeader ⟨some ("Bearer " ++ tok)⟩ = GoResult.ok tok := by
  obtain ⟨l⟩ := tok
  have hdata : ("Bearer " ++ String.mk l).data = "Bearer".data ++ ' ' :: l := rfl
  have hne : ("Bearer " ++ String.mk l) ≠ "" := by
    intro heq
    have hd := congrArg String.data heq
    rw [hdata] at hd
    simp at hd
  have hsplit : stringsSplit ' ' ("Bearer " ++ String.mk l).data
      = ["Bearer".data, l] := by
    rw [hdata, stringsSplit_append_sep ' ' "Bearer".data l (by decide),
        stringsSplit_no_sep ' ' l h]
  have hcond : ¬(((["Bearer".data, l] : List (List Char)).length ≠ 2) ∨
      (((["Bearer".data, l] : List (List Char)).headD []).map Char.toLower
        ≠ "bearer".data)) := by
    push_neg
    exact ⟨rfl, (by decide : List.map Char.toLower "Bearer".data = "bearer".data)⟩
  simp only [FromAuthHeader, Request.headerGetAuthorization, Option.getD]
  rw [if_neg hne, hsplit, if_neg hcond]
  rfl

/-- Witness for C4: `Bearer abc.def.ghi` extracts to `abc.def.ghi`. -/
theorem FromAuthHeader_returns_token_verbatim_witness :
    (' ' ∉ ("abc.def.ghi" : String).data)
    ∧ FromAuthHeader ⟨some ("Bearer " ++ "abc.def.ghi")⟩
        = GoResult.ok "abc.def.ghi" :=
  ⟨by decide, FromAuthHeader_returns_token_verbatim "abc.def.ghi" (by decide)⟩

/-- C5: `New` on Options with unset extractor and/or signing method yields a
Core equal to the one built with `FromAuthHeader` and `SigningMethodHS256`
supplied explicitly (so it behaves identically on every request, library and
claims container), and it never fills the key resolver. -/
theorem New_fills_default_extractor_and_method
    (kf : Option jwt.Keyfunc) (ex : TokenExtractor) (sm : jwt.SigningMethod) :
    New ⟨kf, none, none⟩
      = New ⟨kf, some FromAuthHeader, some jwt.SigningMethodHS256⟩
    ∧ New ⟨kf, none, some sm⟩ = New ⟨kf, some FromAuthHeader, some sm⟩
    ∧ New ⟨kf, some ex, none⟩ = New ⟨kf, some ex, some jwt.SigningMethodHS256⟩
    ∧ (New ⟨none, none, none⟩).Options.Keyfunc = none
    ∧ (New ⟨none, some ex, some sm⟩).Options.Keyfunc = none
    ∧ (∀ (C : Type) (lib : jwt.Lib C) (r : Request) (claims : C),
        (New ⟨kf, none, none⟩).Get lib r
          = (New ⟨kf, some FromAuthHeader, some jwt.SigningMethodHS256⟩).Get lib r
        ∧ (New ⟨kf, none, none⟩).GetWithClaims lib r claims
          = (New ⟨kf, some FromAuthHeader,
              some jwt.SigningMethodHS256⟩).GetWithClaims lib r claims) :=
  ⟨rfl, rfl, rfl, rfl, rfl, fun _ _ _ _ => ⟨rfl, rfl⟩⟩

/-- C6: when extraction produced a non-empty raw token and the library parse
fails, `Get` and `GetWithClaims` return the wrapped parsing error carrying
the underlying message, and the result is the same for every configured
signing method (the algorithm check is never reached). -/
theorem Get_wraps_library_error
    (m : Core) (C : Type) (lib : jwt.Lib C) (claims : C) (r : Request)
    (raw : String) (e f : GoError)
    (hraw : m.rawToken r = GoResult.ok raw)
    (hparse : lib.Parse raw m.Options.Keyfunc = GoResult.err e)
    (hparseC : lib.ParseWithClaims raw claims m.Options.Keyfunc = GoResult.err f) :
    m.Get lib r = GoResult.err (errorParsingToken e)
    ∧ m.GetWithClaims lib r claims = GoResult.err (errorParsingToken f)
    ∧ (∀ sm : Option jwt.SigningMethod,
        (Core.mk { m.Options with SigningMethod := sm }).Get lib r
          = GoResult.err (errorParsingToken e)) := by
  refine ⟨by simp [Core.Get, hraw, hparse],
    by simp [Core.GetWithClaims, hraw, hparseC], ?_⟩
  intro sm
  have hraw' : (Core.mk { m.Options with SigningMethod := sm }).rawToken r
      = GoResult.ok raw := by
    simpa [Core.rawToken] using hraw
  simp [Core.Get, hraw', hparse]

/-- Witness for C6: a failing library makes both entry points return the
wrapped parsing error. -/
theorem Get_wraps_library_error_witness :
    coreDefault.Get libFail reqBearerX
      = GoResult.err ⟨"Error parsing token: signature is invalid"⟩
    ∧ coreDefault.GetWithClaims libFail reqBearerX ()
      = GoResult.err ⟨"Error parsing token: signature is invalid"⟩ := by
  have h := Get_wraps_library_error coreDefault Unit libFail () reqBearerX
    "x" ⟨"signature is invalid"⟩ ⟨"signature is invalid"⟩ (by decide) rfl rfl
  exact ⟨h.1, h.2.1⟩

/-- C7: whenever the library parse operation with the claims container
agrees with the plain parse operation, `GetWithClaims` returns exactly what
`Get` returns: extraction, the empty-token check, error wrapping and the
algorithm check coincide. -/
theorem GetWithClaims_refines_Get
    (m : Core) (C : Type) (lib : jwt.Lib C) (claims : C) (r : Request)
    (hagree : ∀ s : String,
      lib.ParseWithClaims s claims m.Options.Keyfunc
        = lib.Parse s m.Options.Keyfunc) :
    m.GetWithClaims lib r claims = m.Get lib r := by
  simp only [Core.GetWithClaims, Core.Get, hagree]

/-- Witness for C7: with a library whose two parse operations coincide, the
two entry points agree on a concrete request. -/
theorem GetWithClaims_refines_Get_witness :
    coreDefault.GetWithClaims (libConst tokenHS256) reqBearerX ()
      = coreDefault.Get (libConst tokenHS256) reqBearerX :=
  GetWithClaims_refines_Get coreDefault Unit (libConst tokenHS256) ()
    reqBearerX (fun _ => rfl)

/-- C8: a header consisting of a bearer scheme, one space and nothing after
it extracts successfully to the empty string, so validation fails with
token-not-found rather than the header-format error. -/
theorem bearer_scheme_alone_token_not_found
    (scheme : String) (kf : Option jwt.Keyfunc) (smeth : Option jwt.SigningMethod)
    (C : Type) (lib : jwt.Lib C) (claims : C)
    (hnosp : ' ' ∉ scheme.data)
    (hlower : scheme.data.map Char.toLower = "bearer".data) :
    FromAuthHeader ⟨some (scheme ++ " ")⟩ = GoResult.ok ""
    ∧ (Core.mk ⟨kf, some FromAuthHeader, smeth⟩).Get lib ⟨some (scheme ++ " ")⟩
        = GoResult.err tokenNotFoundError
    ∧ (Core.mk ⟨kf, some FromAuthHeader, smeth⟩).GetWithClaims lib
        ⟨some (scheme ++ " ")⟩ claims = GoResult.err tokenNotFoundError
    ∧ tokenNotFoundError ≠ authHeaderFormatError := by
  obtain ⟨ls⟩ := scheme
  have hdata : (String.mk ls ++ " ").data = ls ++ ' ' :: [] := rfl
  have hne : (String.mk ls ++ " ") ≠ "" := by
    intro heq
    have hd := congrArg String.data heq
    rw [hdata] at hd
    simp at hd
  have hsplit : stringsSplit ' ' (String.mk ls ++ " ").data = [ls, []] := by
    rw [hdata, stringsSplit_append_sep ' ' ls [] hnosp]
    rfl
  have hcond : ¬((([ls, []] : List (List Char)).length ≠ 2) ∨
      ((([ls, []] : List (List Char)).headD []).map Char.toLower
        ≠ "bearer".data)) := by
    push_neg
    exact ⟨rfl, hlower⟩
  have hFA : FromAuthHeader ⟨some (String.mk ls ++ " ")⟩ = GoResult.ok "" := by
    simp only [FromAuthHeader, Request.headerGetAuthorization, Option.getD]
    rw [if_neg hne, hsplit, if_neg hcond]
    rfl
  have hraw : (Core.mk ⟨kf, some FromAuthHeader, smeth⟩).rawToken
      ⟨some (String.mk ls ++ " ")⟩ = GoResult.err tokenNotFoundError := by
    simp [Core.rawToken, hFA]
  exact ⟨hFA, by simp [Core.Get, hraw], by simp [Core.GetWithClaims, hraw],
    by decide⟩

/-- Witness for C8: the header `Bearer ` (trailing space, empty token). -/
theorem bearer_scheme_alone_token_not_found_witness :
    FromAuthHeader ⟨some ("Bearer" ++ " ")⟩ = GoResult.ok ""
    ∧ (Core.mk ⟨none, some FromAuthHeader, some jwt.SigningMethodHS256⟩).Get
        (libConst tokenHS256) ⟨some ("Bearer" ++ " ")⟩
        = GoResult.err tokenNotFoundError := by
  have h := bearer_scheme_alone_token_not_found "Bearer" none
    (some jwt.SigningMethodHS256) Unit (libConst tokenHS256) ()
    (by decide) (by decide)
  exact ⟨h.1, h.2.1⟩

/-- C9: with a configured signing method, a token whose header map lacks the
`alg` entry makes `validateToken` return the mismatch error (the nil
interface value compares unequal to the expected identifier string, and the
message renders it as the nil interface); moreover `Get` returns a token
only when its `alg` header entry equals the expected identifier. -/
theorem missing_alg_entry_rejected :
    (∀ (m : Core) (sm : jwt.SigningMethod) (token : jwt.Token),
      m.Options.SigningMethod = some sm →
      token.headerGet "alg" = none →
      m.validateToken token = GoResult.err (invalidAlgorithmError sm.Alg none))
    ∧ (∀ (m : Core) (sm : jwt.SigningMethod) (C : Type) (lib : jwt.Lib C)
        (r : Request) (token : jwt.Token),
        m.Options.SigningMethod = some sm →
        m.Get lib r = GoResult.ok token →
        token.headerGet "alg" = some sm.Alg) := by
  constructor
  · intro m sm token hsm halg
    have hv := validateToken_mismatch m sm token hsm
      (by rw [halg]; exact fun hx => Option.noConfusion hx)
    rw [halg] at hv
    exact hv
  · intro m sm C lib r token hsm hok
    have hvt := validated_of_Get_ok m C lib r token hok
    unfold Core.validateToken at hvt
    simp only [hsm] at hvt
    by_cases hc : some sm.Alg = token.headerGet "alg"
    · exact hc.symm
    · rw [if_pos hc] at hvt
      exact GoResult.noConfusion hvt

/-- Witness for C9: the default Core rejects a token with no `alg` header
entry, and a token it does return carries the expected identifier. -/
theorem missing_alg_entry_rejected_witness :
    coreDefault.validateToken tokenNoAlg
      = GoResult.err (invalidAlgorithmError "HS256" none)
    ∧ tokenHS256.headerGet "alg" = some "HS256" :=
  ⟨missing_alg_entry_rejected.1 coreDefault jwt.SigningMethodHS256 tokenNoAlg
     rfl rfl,
   missing_alg_entry_rejected.2 coreDefault jwt.SigningMethodHS256 Unit
     (libConst tokenHS256) reqBearerX tokenHS256 rfl (by decide)⟩

/-- C10: `New` writes its defaults into the caller-supplied Options value
itself (the returned Core holds exactly the updated value, aliasing the
caller struct), so after construction its Extractor and SigningMethod
fields are non-nil; already-set fields and the Keyfunc field are left
untouched. `Get` and `GetWithClaims` are pure functions of the Core in this
embedding, mirroring that the source never assigns to the Options. -/
theorem New_writes_defaults_into_callers_options
    (o : Options) (kf : Option jwt.Keyfunc) (ex : TokenExtractor)
    (sm : jwt.SigningMethod) :
    (New o).Options = o.applyNewDefaults
    ∧ (o.applyNewDefaults).Extractor.isSome
    ∧ (o.applyNewDefaults).SigningMethod.isSome
    ∧ (o.applyNewDefaults).Keyfunc = o.Keyfunc
    ∧ Options.applyNewDefaults ⟨kf, some ex, some sm⟩ = ⟨kf, some ex, some sm⟩
    ∧ (Options.applyNewDefaults ⟨kf, none, none⟩).Extractor = some FromAuthHeader
    ∧ (Options.applyNewDefaults ⟨kf, none, none⟩).SigningMethod
        = some jwt.SigningMethodHS256 := by
  refine ⟨rfl, ?_, ?_, ?_, rfl, rfl, rfl⟩ <;>
    rcases o with ⟨k, e, s⟩ <;>
    rcases e with _ | e <;> rcases s with _ | s <;>
    simp [Options.applyNewDefaults]
